import Mathlib

/-!
Shallow embedding of the `trfr` tandem-repeat-finder output parser
(`src/record.rs`, `src/error.rs`, `src/reader.rs`, and the legacy copy of the
reader embedded in `src/lib.rs`).

Modelling conventions:
* A raw text line is a `List Char`, exactly the characters `read_line` placed
  in the buffer (so a line normally ends with a newline character; the final
  line of a stream may lack it).  The underlying byte stream is the list of
  such lines, in order; an empty list is end-of-stream.  I/O errors of the
  byte source are outside this model, so the `Io` error kind is not needed.
* Rust machine integers become `Nat` with the parse functions enforcing the
  type's exclusive upper bound (`u8`: 2^8, `u16`: 2^16, `u32`: 2^32,
  `usize`: 2^64 on the 64-bit targets the crate is built for).
* Rust `f32` fields become `Flt`, the exact decimal (mantissa, power-of-ten
  exponent) held by the token, instead of the rounded binary float; the
  `inf`/`infinity`/`NaN` spellings are collapsed to mantissa 0.  No theorem
  below depends on the magnitude of a float field, only on parse success or
  failure, and no reachable record comparison compares differently-spelled
  equal floats (see `readLoop`'s end-of-stream check, which only ever sees
  the untouched default record).
* A Rust panic (the `assert!` in the NGS branch, or the debug-mode underflow
  of `line_elements.len() - 2`) is a distinct outcome constructor `panicked`;
  a panic aborts the process, so a run that panics ends at that point with no
  further items.
-/

namespace Trfr

abbrev Str := List Char

/-- Rust `char::is_whitespace` restricted to the code points that can occur
in the crate's ASCII-oriented input (the remaining Unicode space characters
are not modelled). -/
def isRustWS (c : Char) : Bool :=
  c == ' ' || c == '\t' || c == '\n' || c == '\r' || c == '\x0B' || c == '\x0C'

/-- Rust `str::trim`: drop whitespace from both ends. -/
def trimChars (s : Str) : Str :=
  ((s.dropWhile isRustWS).reverse.dropWhile isRustWS).reverse

/-- Rust `str::starts_with` on the character list. -/
def startsWithL : Str → Str → Bool
  | [], _ => true
  | _ :: _, [] => false
  | p :: ps, c :: cs => p == c && startsWithL ps cs

/-- Rust `s.split(' ')`: split on every single space, keeping empty pieces;
the result is always nonempty (`""` splits to `[""]`). -/
def splitOnSpace : Str → List Str
  | [] => [[]]
  | c :: cs =>
    if c = ' ' then [] :: splitOnSpace cs
    else
      match splitOnSpace cs with
      | t :: ts => (c :: t) :: ts
      | [] => [[c]]

/-- Fuel-driven body of `replaceAll`; every step consumes at least one
character (a nonempty `pat` match consumes `pat.length ≥ 1` characters), so
fuel `s.length` always suffices and the zero-fuel arm is never reached on
the calls `replaceAll` makes. -/
def replaceAllF (pat : Str) : Nat → Str → Str
  | 0, s => s
  | _ + 1, [] => []
  | fuel + 1, c :: cs =>
    if pat ≠ [] ∧ startsWithL pat (c :: cs) then
      replaceAllF pat fuel ((c :: cs).drop pat.length)
    else
      c :: replaceAllF pat fuel cs

/-- Rust `str::replace(pat, "")` as used by the identifier branches: remove
every (leftmost-first, non-overlapping) occurrence of `pat`. -/
def replaceAll (pat : Str) (s : Str) : Str := replaceAllF pat s.length s

/-- Decimal digit value of a character. -/
def digitVal (c : Char) : Option Nat :=
  if '0' ≤ c ∧ c ≤ '9' then some (c.toNat - 48) else none

/-- Accumulate the value of a digit string; `none` on the first non-digit. -/
def digitsVal : Nat → Str → Option Nat
  | acc, [] => some acc
  | acc, c :: cs =>
    match digitVal c with
    | some d => digitsVal (acc * 10 + d) cs
    | none => none

/-- Value of a string known to be all digits (used after a digit scan). -/
def digitsToNat (s : Str) : Nat := (digitsVal 0 s).getD 0

/-- Model of Rust `<unsigned>::from_str` (`parse::<uN>()`): an optional `+`
sign, then one or more decimal digits whose value must be below `bound`.
The error strings are the `ParseIntError` display texts. -/
def parseUnsigned (bound : Nat) (s : Str) : Except Str Nat :=
  let body : Str :=
    match s with
    | '+' :: rest => rest
    | _ => s
  match body with
  | [] => .error ("cannot parse integer from empty string").data
  | _ =>
    match digitsVal 0 body with
    | none => .error ("invalid digit found in string").data
    | some v =>
      if v < bound then .ok v
      else .error ("number too large to fit in target type").data

def toLowerL (s : Str) : Str := s.map Char.toLower

/-- The model of a Rust `f32` value: the exact decimal `mantissa * 10^exp10`
denoted by the source token (binary rounding not modelled). -/
structure Flt where
  mantissa : Int
  exp10 : Int
deriving DecidableEq, Repr

/-- The `f32` value `0.0` (`Default` for float fields). -/
def Flt.zero : Flt := ⟨0, 0⟩

/-- Scan a maximal run of decimal digits. -/
def scanDigits (s : Str) : Str × Str :=
  (s.takeWhile (fun c => (digitVal c).isSome), s.dropWhile (fun c => (digitVal c).isSome))

/-- Model of Rust `f32::from_str` (`parse::<f32>()`): optional sign, then
either one of the special spellings `inf` / `infinity` / `nan`
(case-insensitive, modelled as the value 0, see the header comment) or a
decimal mantissa with at least one digit and an optional `e`/`E` exponent.
The value is the exact decimal of the literal, as a `Flt` (binary rounding
is not modelled; no theorem depends on float magnitudes). -/
def parseF32 (s : Str) : Except Str Flt :=
  let (sign, body) : Int × Str :=
    match s with
    | '+' :: r => (1, r)
    | '-' :: r => (-1, r)
    | _ => (1, s)
  if toLowerL body = ("inf").data ∨ toLowerL body = ("infinity").data ∨
      toLowerL body = ("nan").data then
    .ok ⟨0, 0⟩
  else
    let (ip, r1) := scanDigits body
    let (fp, r2) : Str × Str :=
      match r1 with
      | '.' :: r => scanDigits r
      | _ => ([], r1)
    let hasDot : Bool := match r1 with | '.' :: _ => true | _ => false
    if ip = [] ∧ (¬ hasDot ∨ fp = []) then
      .error ("invalid float literal").data
    else
      let mant : Int := sign * (digitsToNat (ip ++ fp) : Int)
      match r2 with
      | [] => .ok ⟨mant, -(fp.length : Int)⟩
      | e :: r3 =>
        if e = 'e' ∨ e = 'E' then
          let (esign, ebody) : Int × Str :=
            match r3 with
            | '+' :: r => (1, r)
            | '-' :: r => (-1, r)
            | _ => (1, r3)
          let (ed, r4) := scanDigits ebody
          if ed = [] ∨ r4 ≠ [] then .error ("invalid float literal").data
          else .ok ⟨mant, esign * (digitsToNat ed : Int) - (fp.length : Int)⟩
        else .error ("invalid float literal").data

/-- The record of one detected tandem repeat (`src/record.rs`; the struct in
`src/lib.rs` has the identical fields). -/
structure Record where
  seq_id : Str
  start : Nat
  «end» : Nat
  period : Nat
  copy_number : Flt
  consensus_pattern_size : Nat
  perc_matches : Nat
  perc_indels : Nat
  alignment_score : Nat
  perc_a : Nat
  perc_c : Nat
  perc_g : Nat
  perc_t : Nat
  entropy : Flt
  consensus_pattern : Str
  repeat_seq : Str
deriving DecidableEq, Repr

/-- `Record::default()`: empty strings, zero numbers. -/
def Record.default : Record :=
  ⟨[], 0, 0, 0, Flt.zero, 0, 0, 0, 0, 0, 0, 0, 0, Flt.zero, [], []⟩

/-- The error taxonomy of `src/error.rs` (the legacy `src/lib.rs` copy lacks
`ReadRecord`).  `Io` is not modelled: the line-list stream cannot fail.
Payloads are the strings the Rust `Display` impls would render for the
wrapped inner errors. -/
inductive ErrorKind where
  | int (msg : Str)
  | float (msg : Str)
  | parser (msg : Str)
  | readRecord (msg : Str)
deriving DecidableEq, Repr

/-- The `Display` impl for `Error` in `src/error.rs`. -/
def ErrorKind.display : ErrorKind → Str
  | .int m => ("parsing integer error - ").data ++ m
  | .float m => ("parsing float error - ").data ++ m
  | .parser m => ("parser error - ").data ++ m
  | .readRecord m => ("reading record - ").data ++ m

/-- The format-variant tag (`Flag` in `src/reader.rs`): `D` is the classic
dialect (`-d`), `Ngs` the NGS dialect (`-ngs`). -/
inductive Flag where
  | D
  | Ngs
deriving DecidableEq, Repr

/-- Decimal rendering of a `Nat` (for the `format!("at line {}", …)` error
messages); fuel-based so that it reduces by evaluation. -/
def natStrAux : Nat → Nat → Str
  | 0, _ => []
  | fuel + 1, n =>
    if n = 0 then []
    else natStrAux fuel (n / 10) ++ [Char.ofNat (48 + n % 10)]

def natStr (n : Nat) : Str :=
  if n = 0 then ['0'] else natStrAux (n + 1) n

/-- Outcome of `parse_input_line` on one raw line, mirroring the Rust result
type `Result<Option<Option<String>>>` plus the panic outcome:
`skip` = `Ok(None)` (blank/boilerplate), `ident` = `Ok(Some(Some(name)))`,
`data` = `Ok(Some(None))` (the record was filled), `err` = `Err(_)`,
`panicked` = the process aborts (NGS length assertion / length underflow). -/
inductive LineOut where
  | skip
  | ident (name : Str)
  | data
  | err (e : ErrorKind)
  | panicked (msg : Str)
deriving DecidableEq, Repr

def U8 : Nat := 2 ^ 8
def U16 : Nat := 2 ^ 16
def U32 : Nat := 2 ^ 32
def U64 : Nat := 2 ^ 64

/-- The 15 sequential field assignments shared verbatim by
`src/reader.rs::parse_input_line` and `src/lib.rs::parse_input_line`.
Each `?` conversion is a match; a failure stops the chain, returning the
record as mutated so far together with the error (the caller discards it). -/
def setFields (t1 t2 t3 t4 t5 t6 t7 t8 t9 t10 t11 t12 t13 t14 t15 : Str)
    (r : Record) : Record × Option ErrorKind :=
  match parseUnsigned U64 t1 with
  | .error m => (r, some (.int m))
  | .ok v1 =>
  let r := { r with start := v1 }
  match parseUnsigned U64 t2 with
  | .error m => (r, some (.int m))
  | .ok v2 =>
  let r := { r with «end» := v2 }
  match parseUnsigned U16 t3 with
  | .error m => (r, some (.int m))
  | .ok v3 =>
  let r := { r with period := v3 }
  match parseF32 t4 with
  | .error m => (r, some (.float m))
  | .ok v4 =>
  let r := { r with copy_number := v4 }
  match parseUnsigned U16 t5 with
  | .error m => (r, some (.int m))
  | .ok v5 =>
  let r := { r with consensus_pattern_size := v5 }
  match parseUnsigned U8 t6 with
  | .error m => (r, some (.int m))
  | .ok v6 =>
  let r := { r with perc_matches := v6 }
  match parseUnsigned U8 t7 with
  | .error m => (r, some (.int m))
  | .ok v7 =>
  let r := { r with perc_indels := v7 }
  match parseUnsigned U32 t8 with
  | .error m => (r, some (.int m))
  | .ok v8 =>
  let r := { r with alignment_score := v8 }
  match parseUnsigned U8 t9 with
  | .error m => (r, some (.int m))
  | .ok v9 =>
  let r := { r with perc_a := v9 }
  match parseUnsigned U8 t10 with
  | .error m => (r, some (.int m))
  | .ok v10 =>
  let r := { r with perc_c := v10 }
  match parseUnsigned U8 t11 with
  | .error m => (r, some (.int m))
  | .ok v11 =>
  let r := { r with perc_g := v11 }
  match parseUnsigned U8 t12 with
  | .error m => (r, some (.int m))
  | .ok v12 =>
  let r := { r with perc_t := v12 }
  match parseF32 t13 with
  | .error m => (r, some (.float m))
  | .ok v13 =>
  let r := { r with entropy := v13 }
  let r := { r with consensus_pattern := t14 }
  let r := { r with repeat_seq := trimChars t15 }
  (r, none)

/-- The `if let [start, …, repeat_seq] = &line_elements[..]` destructuring of
`src/reader.rs::parse_input_line`: exactly 15 tokens feed `setFields`; any
other count is the structural parser error. -/
def fifteenElements (elems : List Str) (r : Record) : LineOut × Record :=
  match elems with
  | [a, b, c, d, e, f, g, h, i, j, k, l, m, n, o] =>
    match setFields a b c d e f g h i j k l m n o r with
    | (r1, none) => (.data, r1)
    | (r1, some e0) => (.err e0, r1)
  | _ => (.err (.parser ("could not split into 15 elements").data), r)

/-- The data-line section of `src/reader.rs::parse_input_line`: split on
single spaces, then for `Ngs` run `truncate(len - 2)` and
`assert!(len == 15)`.  In debug builds `len - 2` underflows (and panics) when
fewer than two tokens are present; otherwise a wrong count fails the
assertion — both are panics, not returned errors. -/
def dataSection (input : Str) (record : Record) (flag : Flag) :
    LineOut × Record :=
  let elems := splitOnSpace input
  match flag with
  | .D => fifteenElements elems record
  | .Ngs =>
    if elems.length < 2 then
      (.panicked ("attempt to subtract with overflow").data, record)
    else
      let elems2 := elems.take (elems.length - 2)
      if elems2.length = 15 then fifteenElements elems2 record
      else (.panicked ("assertion failed: line_elements.len() == 15").data,
            record)

/-- The boilerplate prefixes of the classic dialect. -/
def noisePrefixes : List Str :=
  [("Tandem Repeats").data, ("Gary Benson").data, ("Program").data,
   ("Boston").data, ("Version").data, ("Parameters").data]

/-- `src/reader.rs::parse_input_line`.  For `D`: blank → skip, boilerplate →
skip, `Sequence`-prefixed → identifier (strip `"Sequence: "` by whole-string
replacement, then trim), otherwise data.  For `Ngs`: `@`-prefixed →
identifier (remove every `@`, then trim), otherwise data — note: no blank or
boilerplate check exists in the `Ngs` arm. -/
def parseInputLine (input : Str) (record : Record) (flag : Flag) :
    LineOut × Record :=
  match flag with
  | .D =>
    if (trimChars input).isEmpty then (.skip, record)
    else if noisePrefixes.any (fun s => startsWithL s input) then
      (.skip, record)
    else if startsWithL ("Sequence").data input then
      (.ident (trimChars (replaceAll ("Sequence: ").data input)), record)
    else dataSection input record flag
  | .Ngs =>
    if startsWithL (['@']) input then
      (.ident (trimChars (replaceAll (['@']) input)), record)
    else dataSection input record flag

/-- `src/lib.rs::parse_input_line` (the legacy copy): same blank /
boilerplate / `Sequence` handling as the classic arm, but a line that does
not destructure into 15 tokens falls through to `Ok(None)` (skip) instead of
a parser error. -/
def libParseInputLine (input : Str) (record : Record) : LineOut × Record :=
  if (trimChars input).isEmpty then (.skip, record)
  else if noisePrefixes.any (fun s => startsWithL s input) then
    (.skip, record)
  else if startsWithL ("Sequence").data input then
    (.ident (trimChars (replaceAll ("Sequence: ").data input)), record)
  else
    match splitOnSpace input with
    | [a, b, c, d, e, f, g, h, i, j, k, l, m, n, o] =>
      match setFields a b c d e f g h i j k l m n o record with
      | (r1, none) => (.data, r1)
      | (r1, some e0) => (.err e0, r1)
    | _ => (.skip, record)

/-- Result of one `read_record` call. `emit` = `Ok(Some(record))`, `eof` =
`Ok(None)`, `fail` = `Err(_)`, `panicked` = process abort. -/
inductive ReadRes where
  | emit (r : Record)
  | eof
  | fail (e : ErrorKind)
  | panicked (msg : Str)
deriving DecidableEq, Repr

/-- The reader state after a `read_record` call: the outcome, the `line`
counter, the held `id`, and the lines not yet consumed. -/
structure LoopOut where
  res : ReadRes
  line : Nat
  id : Str
  rest : List Str
deriving DecidableEq, Repr

/-- The read loop of `src/reader.rs::read_record`.  Each iteration first
increments the line counter, then reads a line.  End-of-stream: `Ok(None)`
if the in-progress record still equals `Record::default()`, else it is
emitted.  A parsed line: blank/boilerplate continues, an identifier updates
the held id and continues, a data line breaks out to emit, a decode failure
aborts with `ReadRecord("at line N, …")`. -/
def readLoop (flag : Flag) :
    Record → Nat → Str → List Str → LoopOut
  | record, line, id, [] =>
    if record = Record.default then ⟨.eof, line + 1, id, []⟩
    else ⟨.emit record, line + 1, id, []⟩
  | record, line, id, input :: rest =>
    match parseInputLine input record flag with
    | (.skip, r) => readLoop flag r (line + 1) id rest
    | (.ident n, r) => readLoop flag r (line + 1) n rest
    | (.data, r) => ⟨.emit r, line + 1, id, rest⟩
    | (.err e, _) =>
      ⟨.fail (.readRecord (("at line ").data ++ natStr (line + 1) ++
        (", ").data ++ e.display)), line + 1, id, rest⟩
    | (.panicked m, _) => ⟨.panicked m, line + 1, id, rest⟩

/-- The read loop of the legacy `src/lib.rs::read_record`.  It differs from
`readLoop` in two ways: an identifier line BREAKS (updating the id and
emitting the in-progress record — still `Record::default()` unless a data
line already filled it), and a decode failure is wrapped as
`Parser("at line N, …")` because the legacy error enum has no `ReadRecord`.
(`libParseInputLine` never returns `panicked`; the arm is kept for
totality.) -/
def libReadLoop :
    Record → Nat → Str → List Str → LoopOut
  | record, line, id, [] =>
    if record = Record.default then ⟨.eof, line + 1, id, []⟩
    else ⟨.emit record, line + 1, id, []⟩
  | record, line, id, input :: rest =>
    match libParseInputLine input record with
    | (.skip, r) => libReadLoop r (line + 1) id rest
    | (.ident n, r) => ⟨.emit r, line + 1, n, rest⟩
    | (.data, r) => ⟨.emit r, line + 1, id, rest⟩
    | (.err e, _) =>
      ⟨.fail (.parser (("at line ").data ++ natStr (line + 1) ++
        (", ").data ++ e.display)), line + 1, id, rest⟩
    | (.panicked m, _) => ⟨.panicked m, line + 1, id, rest⟩

/-- One item yielded by the record iterators (`RecordsIter::next` and
`RecordsIntoIter::next` are verbatim identical in both files): an `Ok`
record, an `Err`, or a panic that aborted the run. -/
inductive Item where
  | ok (r : Record)
  | error (e : ErrorKind)
  | panicked (msg : Str)
deriving DecidableEq, Repr

/-- Fuel-driven iteration of `RecordsIter::next` over `src/reader.rs`'s
reader: on `Ok(Some(r))` the iterator increments the line counter once more
and stamps `r.seq_id` with the reader's current id; on `Ok(None)` iteration
ends; on `Err` the error is yielded and (as the caller may keep calling
`next`) iteration continues on the remaining lines; a panic ends the
process.  Each continuing step consumes at least one line, so fuel
`lines.length + 1` (see `runItems`) always suffices. -/
def runItemsF (flag : Flag) : Nat → Nat → Str → List Str → List Item
  | 0, _, _, _ => []
  | fuel + 1, line, id, lines =>
    match readLoop flag Record.default line id lines with
    | ⟨.eof, _, _, _⟩ => []
    | ⟨.panicked m, _, _, _⟩ => [.panicked m]
    | ⟨.fail e, line1, id1, rest⟩ =>
      .error e :: runItemsF flag fuel line1 id1 rest
    | ⟨.emit r, line1, id1, rest⟩ =>
      .ok { r with seq_id := id1 } :: runItemsF flag fuel (line1 + 1) id1 rest

/-- The full iteration of `src/reader.rs`'s reader over a stream, starting
from line counter `line` and held identifier `id` (a fresh reader has
`line = 0`, `id = ""`). -/
def runItems (flag : Flag) (line : Nat) (id : Str) (lines : List Str) :
    List Item :=
  runItemsF flag (lines.length + 1) line id lines

/-- Fuel-driven iteration for the legacy `src/lib.rs` reader. -/
def libRunItemsF : Nat → Nat → Str → List Str → List Item
  | 0, _, _, _ => []
  | fuel + 1, line, id, lines =>
    match libReadLoop Record.default line id lines with
    | ⟨.eof, _, _, _⟩ => []
    | ⟨.panicked m, _, _, _⟩ => [.panicked m]
    | ⟨.fail e, line1, id1, rest⟩ =>
      .error e :: libRunItemsF fuel line1 id1 rest
    | ⟨.emit r, line1, id1, rest⟩ =>
      .ok { r with seq_id := id1 } :: libRunItemsF fuel (line1 + 1) id1 rest

/-- The full iteration of the legacy `src/lib.rs` reader over a stream. -/
def libRunItems (line : Nat) (id : Str) (lines : List Str) : List Item :=
  libRunItemsF (lines.length + 1) line id lines

/-- Split a byte stream (a string) into the successive buffers
`BufRead::read_line` would return: each chunk extends up to and including a
newline; a final chunk without a newline is returned as-is; the empty stream
yields no lines. -/
def splitLinesAux : Str → Str → List Str
  | acc, [] => if acc = [] then [] else [acc.reverse]
  | acc, c :: cs =>
    if c = '\n' then (c :: acc).reverse :: splitLinesAux [] cs
    else splitLinesAux (c :: acc) cs

def splitLines (s : Str) : List Str := splitLinesAux [] s

/-- A line on which the legacy lib.rs parser and the classic reader-module
parser agree, with a skip or data outcome, for every in-progress record.
Blank lines, boilerplate lines and well-formed 15-token data lines are all
tame; identifier lines (the two loops react differently) and malformed data
lines (error vs. silent skip) are not. -/
def tameLine (l : Str) : Prop :=
  ∀ r : Record,
    parseInputLine l r .D = libParseInputLine l r ∧
    ((parseInputLine l r .D).1 = .skip ∨ (parseInputLine l r .D).1 = .data)

/-! ### Structural facts about the line parser -/

/-- `fifteenElements` only produces a data success or a decode error. -/
theorem fifteenElements_cases (elems : List Str) (r : Record) :
    (∃ r1, fifteenElements elems r = (.data, r1)) ∨
    (∃ e r1, fifteenElements elems r = (.err e, r1)) := by
  unfold fifteenElements
  split
  · split
    · exact .inl ⟨_, rfl⟩
    · exact .inr ⟨_, _, rfl⟩
  · exact .inr ⟨_, _, rfl⟩

/-- `dataSection` only produces a data success, a decode error, or a panic;
a panic leaves the record untouched. -/
theorem dataSection_cases (input : Str) (r : Record) (flag : Flag) :
    (∃ r1, dataSection input r flag = (.data, r1)) ∨
    (∃ e r1, dataSection input r flag = (.err e, r1)) ∨
    (∃ m, dataSection input r flag = (.panicked m, r)) := by
  unfold dataSection
  cases flag
  · rcases fifteenElements_cases (splitOnSpace input) r with ⟨r1, h⟩ | ⟨e, r1, h⟩
    · exact .inl ⟨r1, h⟩
    · exact .inr (.inl ⟨e, r1, h⟩)
  · simp only
    split
    · exact .inr (.inr ⟨_, rfl⟩)
    · split
      · rcases fifteenElements_cases _ r with ⟨r1, h⟩ | ⟨e, r1, h⟩
        · exact .inl ⟨r1, h⟩
        · exact .inr (.inl ⟨e, r1, h⟩)
      · exact .inr (.inr ⟨_, rfl⟩)

/-- Exhaustive shape of a `parseInputLine` result: skip, identifier and
panic outcomes carry the record unchanged. -/
theorem parseInputLine_cases (input : Str) (r : Record) (flag : Flag) :
    parseInputLine input r flag = (.skip, r) ∨
    (∃ n, parseInputLine input r flag = (.ident n, r)) ∨
    (∃ r1, parseInputLine input r flag = (.data, r1)) ∨
    (∃ e r1, parseInputLine input r flag = (.err e, r1)) ∨
    (∃ m, parseInputLine input r flag = (.panicked m, r)) := by
  unfold parseInputLine
  cases flag
  · simp only
    split
    · exact .inl rfl
    · split
      · exact .inl rfl
      · split
        · exact .inr (.inl ⟨_, rfl⟩)
        · rcases dataSection_cases input r .D with ⟨r1, h⟩ | ⟨e, r1, h⟩ | ⟨m, h⟩
          · exact .inr (.inr (.inl ⟨r1, h⟩))
          · exact .inr (.inr (.inr (.inl ⟨e, r1, h⟩)))
          · exact .inr (.inr (.inr (.inr ⟨m, h⟩)))
  · simp only
    split
    · exact .inr (.inl ⟨_, rfl⟩)
    · rcases dataSection_cases input r .Ngs with ⟨r1, h⟩ | ⟨e, r1, h⟩ | ⟨m, h⟩
      · exact .inr (.inr (.inl ⟨r1, h⟩))
      · exact .inr (.inr (.inr (.inl ⟨e, r1, h⟩)))
      · exact .inr (.inr (.inr (.inr ⟨m, h⟩)))

/-- A skip outcome leaves the record unchanged. -/
theorem parseInputLine_skip (input : Str) (r : Record) (flag : Flag)
    (h : (parseInputLine input r flag).1 = .skip) :
    parseInputLine input r flag = (.skip, r) := by
  rcases parseInputLine_cases input r flag with
    h1 | ⟨n, h1⟩ | ⟨r1, h1⟩ | ⟨e, r1, h1⟩ | ⟨m, h1⟩ <;> rw [h1] at h ⊢ <;>
    first | rfl | exact absurd h (by simp)

/-- An identifier outcome leaves the record unchanged. -/
theorem parseInputLine_ident (input : Str) (r : Record) (flag : Flag)
    (n : Str) (h : (parseInputLine input r flag).1 = .ident n) :
    parseInputLine input r flag = (.ident n, r) := by
  rcases parseInputLine_cases input r flag with
    h1 | ⟨n1, h1⟩ | ⟨r1, h1⟩ | ⟨e, r1, h1⟩ | ⟨m, h1⟩ <;> rw [h1] at h ⊢ <;>
    simp_all

/-- Exhaustive shape of a `libParseInputLine` result (no panic arm is
reachable: the legacy parser never truncates or asserts). -/
theorem libParseInputLine_cases (input : Str) (r : Record) :
    libParseInputLine input r = (.skip, r) ∨
    (∃ n, libParseInputLine input r = (.ident n, r)) ∨
    (∃ r1, libParseInputLine input r = (.data, r1)) ∨
    (∃ e r1, libParseInputLine input r = (.err e, r1)) := by
  unfold libParseInputLine
  split
  · exact .inl rfl
  · split
    · exact .inl rfl
    · split
      · exact .inr (.inl ⟨_, rfl⟩)
      · split
        · split
          · exact .inr (.inr (.inl ⟨_, rfl⟩))
          · exact .inr (.inr (.inr ⟨_, _, rfl⟩))
        · exact .inl rfl

/-- A legacy skip outcome leaves the record unchanged. -/
theorem libParseInputLine_skip (input : Str) (r : Record)
    (h : (libParseInputLine input r).1 = .skip) :
    libParseInputLine input r = (.skip, r) := by
  rcases libParseInputLine_cases input r with
    h1 | ⟨n, h1⟩ | ⟨r1, h1⟩ | ⟨e, r1, h1⟩ <;> rw [h1] at h ⊢ <;>
    first | rfl | exact absurd h (by simp)

/-- A legacy identifier outcome leaves the record unchanged. -/
theorem libParseInputLine_ident (input : Str) (r : Record) (n : Str)
    (h : (libParseInputLine input r).1 = .ident n) :
    libParseInputLine input r = (.ident n, r) := by
  rcases libParseInputLine_cases input r with
    h1 | ⟨n1, h1⟩ | ⟨r1, h1⟩ | ⟨e, r1, h1⟩ <;> rw [h1] at h ⊢ <;> simp_all

/-! ### Structural facts about the read loops -/

/-- The unconsumed rest of a `readLoop` call is a suffix of its input. -/
theorem readLoop_rest_suffix (flag : Flag) :
    ∀ (lines : List Str) (record : Record) (line : Nat) (id : Str),
    (readLoop flag record line id lines).rest <:+ lines := by
  intro lines
  induction lines with
  | nil =>
    intro record line id
    simp only [readLoop]
    split <;> exact List.nil_suffix
  | cons input rest ih =>
    intro record line id
    simp only [readLoop]
    rcases parseInputLine_cases input record flag with
      h | ⟨n, h⟩ | ⟨r1, h⟩ | ⟨e, r1, h⟩ | ⟨m, h⟩ <;> rw [h]
    · exact (ih record (line + 1) id).trans (List.suffix_cons input rest)
    · exact (ih record (line + 1) n).trans (List.suffix_cons input rest)
    · exact List.suffix_cons input rest
    · exact List.suffix_cons input rest
    · exact List.suffix_cons input rest

/-- When a `readLoop` call starts from the default record: a failure has
strictly consumed lines, and an emission strictly consumed lines and came
from a successful data-line decode of one of them (so the end-of-stream
emission arm is unreachable from the default record). -/
theorem readLoop_facts (flag : Flag) :
    ∀ (lines : List Str) (line : Nat) (id : Str),
    (∀ e l1 i1 rest,
      readLoop flag Record.default line id lines = ⟨.fail e, l1, i1, rest⟩ →
      rest.length < lines.length) ∧
    (∀ r l1 i1 rest,
      readLoop flag Record.default line id lines = ⟨.emit r, l1, i1, rest⟩ →
      rest.length < lines.length ∧
      ∃ input, input ∈ lines ∧
        parseInputLine input Record.default flag = (.data, r)) := by
  intro lines
  induction lines with
  | nil =>
    intro line id
    constructor
    · intro e l1 i1 rest h
      simp [readLoop] at h
    · intro r l1 i1 rest h
      simp [readLoop] at h
  | cons input rest ih =>
    intro line id
    constructor
    · intro e l1 i1 rest1 h
      simp only [readLoop] at h
      rcases parseInputLine_cases input Record.default flag with
        h0 | ⟨n, h0⟩ | ⟨r1, h0⟩ | ⟨e1, r1, h0⟩ | ⟨m, h0⟩ <;> rw [h0] at h <;>
        simp only at h
      · exact Nat.lt_succ_of_lt ((ih (line + 1) id).1 e l1 i1 rest1 h)
      · exact Nat.lt_succ_of_lt ((ih (line + 1) n).1 e l1 i1 rest1 h)
      · cases h
      · cases h
        exact Nat.lt_succ_self _
      · cases h
    · intro r l1 i1 rest1 h
      simp only [readLoop] at h
      rcases parseInputLine_cases input Record.default flag with
        h0 | ⟨n, h0⟩ | ⟨r1, h0⟩ | ⟨e1, r1, h0⟩ | ⟨m, h0⟩ <;> rw [h0] at h <;>
        simp only at h
      · obtain ⟨hlt, w, hw, hp⟩ := (ih (line + 1) id).2 r l1 i1 rest1 h
        exact ⟨Nat.lt_succ_of_lt hlt, w, List.mem_cons_of_mem input hw, hp⟩
      · obtain ⟨hlt, w, hw, hp⟩ := (ih (line + 1) n).2 r l1 i1 rest1 h
        exact ⟨Nat.lt_succ_of_lt hlt, w, List.mem_cons_of_mem input hw, hp⟩
      · cases h
        exact ⟨Nat.lt_succ_self _, input, List.mem_cons_self input rest,
          h0⟩
      · cases h
      · cases h

/-- The unconsumed rest of a `libReadLoop` call is a suffix of its input. -/
theorem libReadLoop_rest_suffix :
    ∀ (lines : List Str) (record : Record) (line : Nat) (id : Str),
    (libReadLoop record line id lines).rest <:+ lines := by
  intro lines
  induction lines with
  | nil =>
    intro record line id
    simp only [libReadLoop]
    split <;> exact List.nil_suffix
  | cons input rest ih =>
    intro record line id
    simp only [libReadLoop]
    rcases libParseInputLine_cases input record with
      h | ⟨n, h⟩ | ⟨r1, h⟩ | ⟨e, r1, h⟩ <;> rw [h]
    · exact (ih record (line + 1) id).trans (List.suffix_cons input rest)
    · exact List.suffix_cons input rest
    · exact List.suffix_cons input rest
    · exact List.suffix_cons input rest

/-- When a `libReadLoop` call starts from the default record, a failure or
an emission has strictly consumed lines. -/
theorem libReadLoop_facts :
    ∀ (lines : List Str) (line : Nat) (id : Str),
    (∀ e l1 i1 rest,
      libReadLoop Record.default line id lines = ⟨.fail e, l1, i1, rest⟩ →
      rest.length < lines.length) ∧
    (∀ r l1 i1 rest,
      libReadLoop Record.default line id lines = ⟨.emit r, l1, i1, rest⟩ →
      rest.length < lines.length) := by
  intro lines
  induction lines with
  | nil =>
    intro line id
    constructor
    · intro e l1 i1 rest h
      simp [libReadLoop] at h
    · intro r l1 i1 rest h
      simp [libReadLoop] at h
  | cons input rest ih =>
    intro line id
    constructor
    · intro e l1 i1 rest1 h
      simp only [libReadLoop] at h
      rcases libParseInputLine_cases input Record.default with
        h0 | ⟨n, h0⟩ | ⟨r1, h0⟩ | ⟨e1, r1, h0⟩ <;> rw [h0] at h <;>
        simp only at h
      · exact Nat.lt_succ_of_lt ((ih (line + 1) id).1 e l1 i1 rest1 h)
      · cases h
      · cases h
      · cases h
        exact Nat.lt_succ_self _
    · intro r l1 i1 rest1 h
      simp only [libReadLoop] at h
      rcases libParseInputLine_cases input Record.default with
        h0 | ⟨n, h0⟩ | ⟨r1, h0⟩ | ⟨e1, r1, h0⟩ <;> rw [h0] at h <;>
        simp only at h
      · exact Nat.lt_succ_of_lt ((ih (line + 1) id).2 r l1 i1 rest1 h)
      · cases h
        exact Nat.lt_succ_self _
      · cases h
        exact Nat.lt_succ_self _
      · cases h

/-- Any fuel of at least `lines.length + 1` computes the full iteration. -/
theorem runItemsF_eq_run (flag : Flag) :
    ∀ (fuel : Nat) (lines : List Str) (line : Nat) (id : Str),
    lines.length + 1 ≤ fuel →
    runItemsF flag fuel line id lines = runItems flag line id lines := by
  intro fuel
  induction fuel using Nat.strong_induction_on with
  | _ fuel ih =>
    intro lines line id hfuel
    match fuel, hfuel with
    | fuel + 1, hfuel =>
      rw [runItems]
      simp only [runItemsF]
      rcases h : readLoop flag Record.default line id lines with ⟨res, l1, i1, rest⟩
      obtain ⟨hfail, hemit⟩ := readLoop_facts flag lines line id
      cases res with
      | eof => rfl
      | panicked m => rfl
      | fail e =>
        have hlt := hfail e l1 i1 rest h
        have h1 : runItemsF flag fuel l1 i1 rest = runItems flag l1 i1 rest :=
          ih fuel (Nat.lt_succ_self fuel) rest l1 i1 (by omega)
        have h2 : runItemsF flag lines.length l1 i1 rest =
            runItems flag l1 i1 rest :=
          ih lines.length (by omega) rest l1 i1 (by omega)
        simp only [h1, h2]
      | emit r =>
        obtain ⟨hlt, -⟩ := hemit r l1 i1 rest h
        have h1 : runItemsF flag fuel (l1 + 1) i1 rest =
            runItems flag (l1 + 1) i1 rest :=
          ih fuel (Nat.lt_succ_self fuel) rest (l1 + 1) i1 (by omega)
        have h2 : runItemsF flag lines.length (l1 + 1) i1 rest =
            runItems flag (l1 + 1) i1 rest :=
          ih lines.length (by omega) rest (l1 + 1) i1 (by omega)
        simp only [h1, h2]

/-- The one-step recurrence of the reader-module iteration: `runItems`
performs one `read_record` call and continues on the unconsumed lines. -/
theorem runItems_step (flag : Flag) (line : Nat) (id : Str)
    (lines : List Str) :
    runItems flag line id lines =
      match readLoop flag Record.default line id lines with
      | ⟨.eof, _, _, _⟩ => []
      | ⟨.panicked m, _, _, _⟩ => [.panicked m]
      | ⟨.fail e, line1, id1, rest⟩ =>
        .error e :: runItems flag line1 id1 rest
      | ⟨.emit r, line1, id1, rest⟩ =>
        .ok { r with seq_id := id1 } :: runItems flag (line1 + 1) id1 rest := by
  conv_lhs => rw [runItems]
  simp only [runItemsF]
  rcases h : readLoop flag Record.default line id lines with ⟨res, l1, i1, rest⟩
  obtain ⟨hfail, hemit⟩ := readLoop_facts flag lines line id
  cases res with
  | eof => rfl
  | panicked m => rfl
  | fail e =>
    have hlt := hfail e l1 i1 rest h
    simp only [runItemsF_eq_run flag lines.length rest l1 i1 (by omega)]
  | emit r =>
    obtain ⟨hlt, -⟩ := hemit r l1 i1 rest h
    simp only [runItemsF_eq_run flag lines.length rest (l1 + 1) i1 (by omega)]

/-- Any fuel of at least `lines.length + 1` computes the full legacy
iteration. -/
theorem libRunItemsF_eq_run :
    ∀ (fuel : Nat) (lines : List Str) (line : Nat) (id : Str),
    lines.length + 1 ≤ fuel →
    libRunItemsF fuel line id lines = libRunItems line id lines := by
  intro fuel
  induction fuel using Nat.strong_induction_on with
  | _ fuel ih =>
    intro lines line id hfuel
    match fuel, hfuel with
    | fuel + 1, hfuel =>
      rw [libRunItems]
      simp only [libRunItemsF]
      rcases h : libReadLoop Record.default line id lines with ⟨res, l1, i1, rest⟩
      obtain ⟨hfail, hemit⟩ := libReadLoop_facts lines line id
      cases res with
      | eof => rfl
      | panicked m => rfl
      | fail e =>
        have hlt := hfail e l1 i1 rest h
        have h1 : libRunItemsF fuel l1 i1 rest = libRunItems l1 i1 rest :=
          ih fuel (Nat.lt_succ_self fuel) rest l1 i1 (by omega)
        have h2 : libRunItemsF lines.length l1 i1 rest =
            libRunItems l1 i1 rest :=
          ih lines.length (by omega) rest l1 i1 (by omega)
        simp only [h1, h2]
      | emit r =>
        have hlt := hemit r l1 i1 rest h
        have h1 : libRunItemsF fuel (l1 + 1) i1 rest =
            libRunItems (l1 + 1) i1 rest :=
          ih fuel (Nat.lt_succ_self fuel) rest (l1 + 1) i1 (by omega)
        have h2 : libRunItemsF lines.length (l1 + 1) i1 rest =
            libRunItems (l1 + 1) i1 rest :=
          ih lines.length (by omega) rest (l1 + 1) i1 (by omega)
        simp only [h1, h2]

/-- The one-step recurrence of the legacy iteration. -/
theorem libRunItems_step (line : Nat) (id : Str) (lines : List Str) :
    libRunItems line id lines =
      match libReadLoop Record.default line id lines with
      | ⟨.eof, _, _, _⟩ => []
      | ⟨.panicked m, _, _, _⟩ => [.panicked m]
      | ⟨.fail e, line1, id1, rest⟩ => .error e :: libRunItems line1 id1 rest
      | ⟨.emit r, line1, id1, rest⟩ =>
        .ok { r with seq_id := id1 } :: libRunItems (line1 + 1) id1 rest := by
  conv_lhs => rw [libRunItems]
  simp only [libRunItemsF]
  rcases h : libReadLoop Record.default line id lines with ⟨res, l1, i1, rest⟩
  obtain ⟨hfail, hemit⟩ := libReadLoop_facts lines line id
  cases res with
  | eof => rfl
  | panicked m => rfl
  | fail e =>
    have hlt := hfail e l1 i1 rest h
    simp only [libRunItemsF_eq_run lines.length rest l1 i1 (by omega)]
  | emit r =>
    have hlt := hemit r l1 i1 rest h
    simp only [libRunItemsF_eq_run lines.length rest (l1 + 1) i1 (by omega)]

/-! ### Token-level facts used by the amended claims -/

/-- A list with a non-15 length falls through the 15-element destructuring
to the structural parser error, with the record untouched. -/
theorem fifteenElements_ne_15 (elems : List Str) (r : Record)
    (h : elems.length ≠ 15) :
    fifteenElements elems r =
      (.err (.parser (("could not split into 15 elements").data)), r) := by
  unfold fifteenElements
  split
  · simp_all
  · rfl

/-- If the first of the 15 tokens fails the `usize` conversion, the decode
fails with that `Int` error and the record is untouched. -/
theorem fifteenElements_first_int_error (elems : List Str) (r : Record)
    (hlen : elems.length = 15) (msg : Str)
    (hp : parseUnsigned U64 elems.headI = .error msg) :
    fifteenElements elems r = (.err (.int msg), r) := by
  match elems, hlen with
  | [a, b, c, d, e, f, g, h, i, j, k, l, m, n, o], _ =>
    simp only [List.headI] at hp
    simp [fifteenElements, setFields, hp]

/-- A classic-dialect line that is not blank, not boilerplate and not a
`Sequence` line, and does not split into exactly 15 tokens, decodes to the
structural parser error. -/
theorem classicNon15ParserError (input : Str) (r : Record)
    (h1 : (trimChars input).isEmpty = false)
    (h2 : (noisePrefixes.any fun s => startsWithL s input) = false)
    (h3 : startsWithL (("Sequence").data) input = false)
    (h4 : (splitOnSpace input).length ≠ 15) :
    parseInputLine input r .D =
      (.err (.parser (("could not split into 15 elements").data)), r) := by
  simp only [parseInputLine, h1, h2, h3, Bool.false_eq_true, if_false,
    dataSection]
  exact fifteenElements_ne_15 _ r h4

/-- An NGS-dialect non-`@` line whose token count is not exactly 17 panics
(on the underflow of `len - 2` for fewer than two tokens, on the length
assertion otherwise), leaving the record untouched. -/
theorem ngsDataNon17Panics (input : Str) (r : Record)
    (h1 : startsWithL (['@']) input = false)
    (h2 : (splitOnSpace input).length ≠ 17) :
    ∃ m, parseInputLine input r .Ngs = (.panicked m, r) := by
  simp only [parseInputLine, h1, Bool.false_eq_true, if_false, dataSection]
  split
  · exact ⟨_, rfl⟩
  · rename_i hge
    rw [if_neg]
    · exact ⟨_, rfl⟩
    · simp only [List.length_take]
      omega

/-- An NGS-dialect non-`@` line with exactly 17 tokens is decoded by the
15-element decoder applied to the first 15 tokens (the last two are
dropped). -/
theorem ngsData17Take (input : Str) (r : Record)
    (h1 : startsWithL (['@']) input = false)
    (h2 : (splitOnSpace input).length = 17) :
    parseInputLine input r .Ngs =
      fifteenElements ((splitOnSpace input).take 15) r := by
  simp only [parseInputLine, h1, Bool.false_eq_true, if_false, dataSection,
    h2]
  rw [if_neg (by omega),
    if_pos (by simp only [List.length_take, h2]; decide)]

/-- A trimmed-to-empty line consists of whitespace only. -/
theorem trim_empty_all_ws (s : Str)
    (h : (trimChars s).isEmpty = true) :
    ∀ c ∈ s, isRustWS c = true := by
  have h0 : trimChars s = [] := by
    cases hs : trimChars s with
    | nil => rfl
    | cons a l => rw [hs] at h; simp [List.isEmpty] at h
  unfold trimChars at h0
  rw [List.reverse_eq_nil_iff] at h0
  rw [List.dropWhile_eq_nil_iff] at h0
  have h1 : ∀ c ∈ s.dropWhile isRustWS, isRustWS c = true := by
    intro c hc
    exact h0 c (by rwa [List.mem_reverse])
  intro c hc
  rw [← List.takeWhile_append_dropWhile (p := isRustWS) (l := s),
    List.mem_append] at hc
  rcases hc with hc | hc
  · exact List.mem_takeWhile_imp hc
  · exact h1 c hc

/-- Every character of every token produced by the space split is a
character of the split line. -/
theorem splitOnSpace_token_chars :
    ∀ (s : Str) (t : Str), t ∈ splitOnSpace s → ∀ c ∈ t, c ∈ s := by
  intro s
  induction s with
  | nil =>
    intro t ht c hc
    simp only [splitOnSpace, List.mem_singleton] at ht
    subst ht
    cases hc
  | cons c0 cs ih =>
    intro t ht c hc
    simp only [splitOnSpace] at ht
    by_cases h0 : c0 = ' '
    · rw [if_pos h0] at ht
      rcases List.mem_cons.mp ht with rfl | ht
      · cases hc
      · exact List.mem_cons_of_mem c0 (ih t ht c hc)
    · rw [if_neg h0] at ht
      rcases hsp : splitOnSpace cs with _ | ⟨t0, ts⟩
      · rw [hsp] at ht
        simp only [List.mem_singleton] at ht
        subst ht
        rcases List.mem_singleton.mp hc with rfl
        exact List.mem_cons_self c cs
      · rw [hsp] at ht
        rcases List.mem_cons.mp ht with rfl | ht
        · rcases List.mem_cons.mp hc with rfl | hc
          · exact List.mem_cons_self c cs
          · refine List.mem_cons_of_mem c0 (ih t0 ?_ c hc)
            rw [hsp]
            exact List.mem_cons_self t0 ts
        · refine List.mem_cons_of_mem c0 (ih t ?_ c hc)
          rw [hsp]
          exact List.mem_cons_of_mem t0 ht

/-- A whitespace-only token fails the unsigned conversion. -/
theorem ws_token_parse_fails (t : Str)
    (h : ∀ c ∈ t, isRustWS c = true) :
    ∃ msg, parseUnsigned U64 t = .error msg := by
  cases t with
  | nil => exact ⟨_, rfl⟩
  | cons c cs =>
    have hc := h c (List.mem_cons_self c cs)
    simp only [isRustWS, Bool.or_eq_true, beq_iff_eq] at hc
    rcases hc with ((((rfl | rfl) | rfl) | rfl) | rfl) | rfl <;>
      exact ⟨_, rfl⟩

/-- A whitespace-only line does not start with `@`. -/
theorem ws_line_no_at (s : Str) (h : ∀ c ∈ s, isRustWS c = true) :
    startsWithL (['@']) s = false := by
  cases s with
  | nil => rfl
  | cons c cs =>
    have hc := h c (List.mem_cons_self c cs)
    simp only [isRustWS, Bool.or_eq_true, beq_iff_eq] at hc
    rcases hc with ((((rfl | rfl) | rfl) | rfl) | rfl) | rfl <;> rfl

/-! ### Claim theorems -/

/-- Claim C9: iterating a classic-variant reader over the stream
"Sequence: chr1\n10 20 5 2.0 5 90 1 50 20 20 30 30 1.5 ACGTA ACGTAACGTA\n"
yields exactly one Ok record — seq_id "chr1", start 10, end 20, period 5,
copy_number 2.0, consensus_pattern_size 5, perc_matches 90, perc_indels 1,
alignment_score 50, base percentages 20/20/30/30, entropy 1.5,
consensus_pattern "ACGTA" and repeat_seq "ACGTAACGTA" (trailing newline
trimmed) — followed by end of sequence. -/
theorem c9_classic_example :
    runItems .D 0 []
      (splitLines
        ("Sequence: chr1\n10 20 5 2.0 5 90 1 50 20 20 30 30 1.5 ACGTA ACGTAACGTA\n").data) =
      [Item.ok ⟨("chr1").data, 10, 20, 5, ⟨20, -1⟩, 5, 90, 1, 50, 20, 20, 30,
        30, ⟨15, -1⟩, ("ACGTA").data, ("ACGTAACGTA").data⟩] := by
  decide

/-- Claim C7 (failing input): on the classic identifier line
"Sequence: fooSequence: bar\n" the code's whole-string replacement also
removes the occurrence of "Sequence: " inside the identifier text, holding
"foobar" afterwards instead of the prefix-stripped "fooSequence: bar" the
claim requires. -/
theorem c7_replace_strips_interior :
    (parseInputLine ("Sequence: fooSequence: bar\n").data Record.default
        .D).1 =
      .ident (("foobar").data) ∧
    ("foobar").data ≠ ("fooSequence: bar").data := by
  decide

/-- Claim C2 (counterexample): the legacy lib.rs reader and the classic
(Flag::D) reader-module reader are not the same state machine.  On the
single identifier line "Sequence: chr1\n" the legacy reader emits one
(default-valued) record while the reader module emits nothing; on the
malformed data line "a b\n" the legacy reader silently skips while the
reader module yields an error. -/
theorem c2_not_same_machine :
    libRunItems 0 [] [("Sequence: chr1\n").data] =
      [Item.ok { Record.default with seq_id := ("chr1").data }] ∧
    runItems .D 0 [] [("Sequence: chr1\n").data] = [] ∧
    libRunItems 0 [] [("a b\n").data] = [] ∧
    runItems .D 0 [] [("a b\n").data] =
      [Item.error (.readRecord
        (("at line 1, parser error - could not split into 15 elements").data))] := by
  decide

/-- Claim C4 (counterexample): in the NGS variant a blank line is not
classified as Blank and discarded — the empty line panics on the length
underflow, and a whitespace-only line panics on the length assertion. -/
theorem c4_ngs_blank_not_discarded :
    runItems .Ngs 0 [] [['\n']] =
      [Item.panicked (("attempt to subtract with overflow").data)] ∧
    (parseInputLine [' ', '\n'] Record.default .Ngs).1 =
      .panicked (("assertion failed: line_elements.len() == 15").data) := by
  decide

/-- Claim C5 (counterexample): after one record has been emitted, the error
for a malformed data line embeds line number 3 although the offending line
is the 2nd line of the stream — the iterator's extra `line += 1` per emitted
record skews the counter. -/
theorem c5_line_number_skewed :
    runItems .D 0 []
      (splitLines
        ("10 20 5 2.0 5 90 1 50 20 20 30 30 1.5 ACGTA ACGTAACGTA\na b\n").data) =
      [Item.ok ⟨[], 10, 20, 5, ⟨20, -1⟩, 5, 90, 1, 50, 20, 20, 30, 30,
        ⟨15, -1⟩, ("ACGTA").data, ("ACGTAACGTA").data⟩,
       Item.error (.readRecord
        (("at line 3, parser error - could not split into 15 elements").data))] ∧
    ("at line 3, parser error - could not split into 15 elements").data ≠
      ("at line 2, parser error - could not split into 15 elements").data := by
  decide

/-- Claim C3 (counterexample): an NGS data line whose token count is not 17
does not fail with a ReadRecord/Parser error returned to the caller — a
16-token line trips the length assertion and panics; moreover a 17-token
line with a non-numeric first field fails decode, so token count alone does
not guarantee success. -/
theorem c3_ngs_short_line_panics :
    (parseInputLine ("1 2 3 4 5 6 7 8 9 10 11 12 13 14 15 16\n").data
        Record.default .Ngs).1 =
      .panicked (("assertion failed: line_elements.len() == 15").data) ∧
    runItems .Ngs 0 []
        [("1 2 3 4 5 6 7 8 9 10 11 12 13 14 15 16\n").data] =
      [Item.panicked (("assertion failed: line_elements.len() == 15").data)] ∧
    (parseInputLine ("x 2 3 4.0 5 6 7 8 9 10 11 12 1.0 AA BB C D\n").data
        Record.default .Ngs).1 =
      .err (.int (("invalid digit found in string").data)) := by
  decide

/-- Claim C6 (counterexample): in the NGS variant a data line whose token
count after dropping the last two is 16 (not 15) does not produce a
structural Parser error — the length assertion panics instead. -/
theorem c6_ngs_wrong_count_panics :
    runItems .Ngs 0 []
        [("1 2 3 4 5 6 7 8 9 10 11 12 13 14 15 16 17 18\n").data] =
      [Item.panicked (("assertion failed: line_elements.len() == 15").data)] := by
  decide

/-- Claim C1: for either variant, a line that classifies as an identifier
never terminates an in-progress record.  Within a `read_record` call it only
updates the held identifier and the loop continues on the remaining lines
(for any in-progress record), and at the iteration level the identifier line
is absorbed into the reader state before any item is produced — so the items
already emitted for an earlier prefix are unchanged, and all subsequent
records are stamped from the updated identifier (the stamp `seq_id := id1`
in `runItems_step` uses the held identifier at emission time). -/
theorem c1_identifier_line_continues (flag : Flag) (l n : Str)
    (h : ∀ r : Record, (parseInputLine l r flag).1 = .ident n) :
    (∀ (record : Record) (line : Nat) (id : Str) (rest : List Str),
      readLoop flag record line id (l :: rest) =
        readLoop flag record (line + 1) n rest) ∧
    (∀ (line : Nat) (id : Str) (rest : List Str),
      runItems flag line id (l :: rest) = runItems flag (line + 1) n rest) := by
  have hp : ∀ r : Record, parseInputLine l r flag = (.ident n, r) :=
    fun r => parseInputLine_ident l r flag n (h r)
  have hloop : ∀ (record : Record) (line : Nat) (id : Str) (rest : List Str),
      readLoop flag record line id (l :: rest) =
        readLoop flag record (line + 1) n rest := by
    intro record line id rest
    simp only [readLoop, hp record]
  refine ⟨hloop, ?_⟩
  intro line id rest
  rw [runItems_step flag line id (l :: rest),
    runItems_step flag (line + 1) n rest, hloop Record.default line id rest]

/-- Witness for C1: the classic identifier line "Sequence: s1\n" updates the
held identifier to "s1" and continues. -/
theorem c1_identifier_line_continues_witness :
    readLoop .D Record.default 0 [] [("Sequence: s1\n").data] =
      readLoop .D Record.default 1 (("s1").data) [] ∧
    runItems .D 0 [] [("Sequence: s1\n").data] =
      runItems .D 1 (("s1").data) [] := by
  have h := c1_identifier_line_continues .D (("Sequence: s1\n").data)
    (("s1").data) (fun r => rfl)
  exact ⟨h.1 Record.default 0 [] [], h.2 0 [] []⟩

/-- Claim C3 (amended): an NGS data line (non-`@`) with exactly 17 tokens is
decoded by the 15-element decoder on its first 15 tokens (dropping the last
two), succeeding exactly when those 15 fields convert; an NGS data line
whose token count is not 17 panics on the length assertion (or on the
`len - 2` underflow) instead of returning an error to the caller. -/
theorem c3_ngs_17_token_decode :
    (∀ (input : Str) (r : Record),
      startsWithL (['@']) input = false →
      (splitOnSpace input).length = 17 →
      parseInputLine input r .Ngs =
        fifteenElements ((splitOnSpace input).take 15) r) ∧
    (∀ (input : Str) (r : Record),
      startsWithL (['@']) input = false →
      (splitOnSpace input).length ≠ 17 →
      ∃ m, parseInputLine input r .Ngs = (.panicked m, r)) :=
  ⟨fun input r h1 h2 => ngsData17Take input r h1 h2,
   fun input r h1 h2 => ngsDataNon17Panics input r h1 h2⟩

/-- Witness for C3 on a well-formed 17-token line and a 16-token line. -/
theorem c3_ngs_17_token_decode_witness :
    parseInputLine
        (("10 20 5 2.0 5 90 1 50 20 20 30 30 1.5 ACGTA ACGTAACGTA GGG CCC\n").data)
        Record.default .Ngs =
      fifteenElements
        ((splitOnSpace
          (("10 20 5 2.0 5 90 1 50 20 20 30 30 1.5 ACGTA ACGTAACGTA GGG CCC\n").data)).take 15)
        Record.default ∧
    ∃ m, parseInputLine
        (("1 2 3 4 5 6 7 8 9 10 11 12 13 14 15 16\n").data)
        Record.default .Ngs = (.panicked m, Record.default) :=
  ⟨c3_ngs_17_token_decode.1 _ Record.default (by decide) (by decide),
   c3_ngs_17_token_decode.2 _ Record.default (by decide) (by decide)⟩

/-- Claim C4 (amended): in the classic variant an empty or whitespace-only
line is discarded — it leaves the record untouched and the read loop simply
continues with the next line, producing no record and no error; in the NGS
variant such a line is NOT discarded: it falls through to the data path and
either panics (token count ≠ 17) or fails the first numeric conversion
(whitespace tokens are not digits). -/
theorem c4_blank_line_behaviour :
    (∀ (input : Str) (r : Record),
      (trimChars input).isEmpty = true →
      parseInputLine input r .D = (.skip, r)) ∧
    (∀ (record : Record) (line : Nat) (id : Str) (input : Str)
        (rest : List Str),
      (trimChars input).isEmpty = true →
      readLoop .D record line id (input :: rest) =
        readLoop .D record (line + 1) id rest) ∧
    (∀ (input : Str) (r : Record),
      (trimChars input).isEmpty = true →
      (∃ m, parseInputLine input r .Ngs = (.panicked m, r)) ∨
      (∃ e r1, parseInputLine input r .Ngs = (.err e, r1))) := by
  have hskip : ∀ (input : Str) (r : Record),
      (trimChars input).isEmpty = true →
      parseInputLine input r .D = (.skip, r) := by
    intro input r h
    simp only [parseInputLine, h, if_true]
  refine ⟨hskip, ?_, ?_⟩
  · intro record line id input rest h
    simp only [readLoop, hskip input record h]
  · intro input r h
    have hws : ∀ c ∈ input, isRustWS c = true := trim_empty_all_ws input h
    have hat : startsWithL (['@']) input = false := ws_line_no_at input hws
    by_cases h17 : (splitOnSpace input).length = 17
    · right
      rw [ngsData17Take input r hat h17]
      rcases hsp : splitOnSpace input with _ | ⟨t1, ts⟩
      · rw [hsp] at h17; cases h17
      · have ht1ws : ∀ c ∈ t1, isRustWS c = true := by
          intro c hc
          exact hws c (splitOnSpace_token_chars input t1
            (hsp ▸ List.mem_cons_self t1 ts) c hc)
        obtain ⟨msg, hmsg⟩ := ws_token_parse_fails t1 ht1ws
        have hlen : ((t1 :: ts).take 15).length = 15 := by
          rw [hsp] at h17
          simp only [List.length_take, h17]
          decide
        have hhead : ((t1 :: ts).take 15).headI = t1 := by
          simp [List.take_cons]
        exact ⟨.int msg, r,
          fifteenElements_first_int_error _ r hlen msg (hhead ▸ hmsg)⟩
    · exact .inl (ngsDataNon17Panics input r hat h17)

/-- Witness for C4 on the concrete whitespace-only line " \n" in both
variants (classified blank and skipped for classic; a panic for NGS). -/
theorem c4_blank_line_behaviour_witness :
    parseInputLine [' ', '\n'] Record.default .D = (.skip, Record.default) ∧
    readLoop .D Record.default 0 [] [[' ', '\n']] =
      readLoop .D Record.default 1 [] [] ∧
    ((∃ m, parseInputLine [' ', '\n'] Record.default .Ngs =
        (.panicked m, Record.default)) ∨
     (∃ e r1, parseInputLine [' ', '\n'] Record.default .Ngs =
        (.err e, r1))) :=
  ⟨c4_blank_line_behaviour.1 [' ', '\n'] Record.default (by decide),
   c4_blank_line_behaviour.2.1 Record.default 0 [] [' ', '\n'] [] (by decide),
   c4_blank_line_behaviour.2.2 [' ', '\n'] Record.default (by decide)⟩

/-- Claim C6 (amended): in the classic variant, a data line (non-blank,
non-boilerplate, non-`Sequence`) whose token count is not exactly 15 fails
with the structural Parser error citing "could not split into 15 elements"
— never a numeric Int/Float error and with the record untouched; in the NGS
variant, a non-`@` line whose token count is not 17 (so not 15 after
dropping the last two) panics on the length assertion instead. -/
theorem c6_wrong_count_structural :
    (∀ (input : Str) (r : Record),
      (trimChars input).isEmpty = false →
      (noisePrefixes.any fun s => startsWithL s input) = false →
      startsWithL (("Sequence").data) input = false →
      (splitOnSpace input).length ≠ 15 →
      parseInputLine input r .D =
        (.err (.parser (("could not split into 15 elements").data)), r)) ∧
    (∀ (input : Str) (r : Record),
      startsWithL (['@']) input = false →
      (splitOnSpace input).length ≠ 17 →
      ∃ m, parseInputLine input r .Ngs = (.panicked m, r)) :=
  ⟨fun input r h1 h2 h3 h4 => classicNon15ParserError input r h1 h2 h3 h4,
   fun input r h1 h2 => ngsDataNon17Panics input r h1 h2⟩

/-- Witness for C6 on a 3-token classic line and a 4-token NGS line. -/
theorem c6_wrong_count_structural_witness :
    parseInputLine (("a b c\n").data) Record.default .D =
      (.err (.parser (("could not split into 15 elements").data)),
        Record.default) ∧
    ∃ m, parseInputLine (("p q r s\n").data) Record.default .Ngs =
      (.panicked m, Record.default) :=
  ⟨c6_wrong_count_structural.1 _ Record.default (by decide) (by decide)
      (by decide) (by decide),
   c6_wrong_count_structural.2 _ Record.default (by decide) (by decide)⟩

/-- Claim C5 (amended): within one `read_record` call the line counter
advances exactly with the lines consumed, so a decode failure is wrapped as
`ReadRecord` embedding `line0 + consumed` — the true 1-based position of the
offending line when the counter started at `line0 = 0` (a fresh reader) and
no record had been emitted; but the iterator adds one extra to the counter
for each emitted record (the `line1 + 1` continuation in `runItems_step`),
so after emissions the embedded number exceeds the true line number by the
number of records emitted, as `c5_line_number_skewed` shows concretely. -/
theorem c5_error_embeds_counter (flag : Flag) :
    ∀ (lines : List Str) (line0 : Nat) (id : Str),
    (∀ e l1 i1 rest,
      readLoop flag Record.default line0 id lines = ⟨.fail e, l1, i1, rest⟩ →
      l1 = line0 + (lines.length - rest.length) ∧
      ∃ inner : ErrorKind,
        e = .readRecord (("at line ").data ++ natStr l1 ++ (", ").data ++
          inner.display)) ∧
    (∀ r l1 i1 rest,
      readLoop flag Record.default line0 id lines = ⟨.emit r, l1, i1, rest⟩ →
      l1 = line0 + (lines.length - rest.length)) := by
  intro lines
  induction lines with
  | nil =>
    intro line0 id
    constructor
    · intro e l1 i1 rest h
      simp [readLoop] at h
    · intro r l1 i1 rest h
      simp [readLoop] at h
  | cons input rest0 ih =>
    intro line0 id
    constructor
    · intro e l1 i1 rest1 h
      simp only [readLoop] at h
      rcases parseInputLine_cases input Record.default flag with
        h0 | ⟨n, h0⟩ | ⟨r1, h0⟩ | ⟨e1, r1, h0⟩ | ⟨m, h0⟩ <;> rw [h0] at h <;>
        simp only at h
      · obtain ⟨hl, inner, hinner⟩ := (ih (line0 + 1) id).1 e l1 i1 rest1 h
        have hsuf : rest1 <:+ rest0 := by
          have := readLoop_rest_suffix flag rest0 Record.default (line0 + 1) id
          rw [h] at this
          exact this
        have hle := hsuf.length_le
        exact ⟨by simp only [List.length_cons]; omega, inner, hinner⟩
      · obtain ⟨hl, inner, hinner⟩ := (ih (line0 + 1) n).1 e l1 i1 rest1 h
        have hsuf : rest1 <:+ rest0 := by
          have := readLoop_rest_suffix flag rest0 Record.default (line0 + 1) n
          rw [h] at this
          exact this
        have hle := hsuf.length_le
        exact ⟨by simp only [List.length_cons]; omega, inner, hinner⟩
      · cases h
      · cases h
        exact ⟨by simp only [List.length_cons]; omega, e1, rfl⟩
      · cases h
    · intro r l1 i1 rest1 h
      simp only [readLoop] at h
      rcases parseInputLine_cases input Record.default flag with
        h0 | ⟨n, h0⟩ | ⟨r1, h0⟩ | ⟨e1, r1, h0⟩ | ⟨m, h0⟩ <;> rw [h0] at h <;>
        simp only at h
      · have hl := (ih (line0 + 1) id).2 r l1 i1 rest1 h
        have hsuf : rest1 <:+ rest0 := by
          have := readLoop_rest_suffix flag rest0 Record.default (line0 + 1) id
          rw [h] at this
          exact this
        have hle := hsuf.length_le
        simp only [List.length_cons]
        omega
      · have hl := (ih (line0 + 1) n).2 r l1 i1 rest1 h
        have hsuf : rest1 <:+ rest0 := by
          have := readLoop_rest_suffix flag rest0 Record.default (line0 + 1) n
          rw [h] at this
          exact this
        have hle := hsuf.length_le
        simp only [List.length_cons]
        omega
      · cases h
        simp only [List.length_cons]
        omega
      · cases h
      · cases h

/-- Witness for C5: the failing first line of a fresh classic reader is
reported as line 1 = 0 + (1 - 0). -/
theorem c5_error_embeds_counter_witness :
    (1 = 0 + (([("a b\n").data] : List Str).length -
      ([] : List Str).length) ∧
    ∃ inner : ErrorKind,
      ErrorKind.readRecord
          (("at line 1, parser error - could not split into 15 elements").data) =
        .readRecord (("at line ").data ++ natStr 1 ++ (", ").data ++
          inner.display)) :=
  (c5_error_embeds_counter .D [("a b\n").data] 0 []).1
    (.readRecord
      (("at line 1, parser error - could not split into 15 elements").data))
    1 [] [] (by decide)

/-- Claim C8: every record yielded as Ok by the iteration is fully
populated atomically: up to the `seq_id` stamp it is exactly the result of
one successful data-line decode of the default record, for some line of the
stream.  In particular the untouched default sentinel is never emitted (the
end-of-stream emission arm is unreachable from the default record, see
`readLoop_facts`), and a record partially mutated by a failed decode never
escapes (a failure yields an error item, never an Ok item). -/
theorem c8_ok_records_fully_decoded (flag : Flag) :
    ∀ (lines : List Str) (line : Nat) (id : Str) (r : Record),
    Item.ok r ∈ runItems flag line id lines →
    ∃ input r1, input ∈ lines ∧
      parseInputLine input Record.default flag = (.data, r1) ∧
      r = { r1 with seq_id := r.seq_id } := by
  have H : ∀ (N : Nat) (lines : List Str), lines.length ≤ N →
      ∀ (line : Nat) (id : Str) (r : Record),
      Item.ok r ∈ runItems flag line id lines →
      ∃ input r1, input ∈ lines ∧
        parseInputLine input Record.default flag = (.data, r1) ∧
        r = { r1 with seq_id := r.seq_id } := by
    intro N
    induction N with
    | zero =>
      intro lines hlen line id r hmem
      have hnil : lines = [] := List.length_eq_zero.mp (Nat.le_zero.mp hlen)
      subst hnil
      rw [runItems_step] at hmem
      simp [readLoop] at hmem
    | succ N ih =>
      intro lines hlen line id r hmem
      rw [runItems_step] at hmem
      rcases h : readLoop flag Record.default line id lines with
        ⟨res, l1, i1, rest⟩
      rw [h] at hmem
      obtain ⟨hfail, hemit⟩ := readLoop_facts flag lines line id
      have hsuf : rest <:+ lines := by
        have := readLoop_rest_suffix flag lines Record.default line id
        rw [h] at this
        exact this
      cases res with
      | eof => cases hmem
      | panicked m =>
        rcases List.mem_cons.mp hmem with h1 | h1
        · cases h1
        · cases h1
      | fail e =>
        rcases List.mem_cons.mp hmem with h1 | h1
        · cases h1
        · have hlt := hfail e l1 i1 rest h
          obtain ⟨input, r1, hin, hp, hr⟩ := ih rest (by omega) l1 i1 r h1
          exact ⟨input, r1, hsuf.subset hin, hp, hr⟩
      | emit r0 =>
        rcases List.mem_cons.mp hmem with h1 | h1
        · obtain ⟨hlt, input, hin, hp⟩ := hemit r0 l1 i1 rest h
          cases h1
          exact ⟨input, r0, hin, hp, rfl⟩
        · obtain ⟨hlt, -⟩ := hemit r0 l1 i1 rest h
          obtain ⟨input, r1, hin, hp, hr⟩ :=
            ih rest (by omega) (l1 + 1) i1 r h1
          exact ⟨input, r1, hsuf.subset hin, hp, hr⟩
  intro lines line id r hmem
  exact H lines.length lines (le_refl _) line id r hmem

/-- Witness for C8: the one record of a concrete NGS stream is the decode of
its data line. -/
theorem c8_ok_records_fully_decoded_witness :
    ∃ input r1,
      input ∈ [("@s9\n").data,
        ("10 20 5 2.0 5 90 1 50 20 20 30 30 1.5 ACGTA ACGTAACGTA GGG CCC\n").data] ∧
      parseInputLine input Record.default .Ngs = (.data, r1) ∧
      (⟨("s9").data, 10, 20, 5, ⟨20, -1⟩, 5, 90, 1, 50, 20, 20, 30, 30,
        ⟨15, -1⟩, ("ACGTA").data, ("ACGTAACGTA").data⟩ : Record) =
        { r1 with seq_id :=
          (⟨("s9").data, 10, 20, 5, ⟨20, -1⟩, 5, 90, 1, 50, 20, 20, 30, 30,
            ⟨15, -1⟩, ("ACGTA").data, ("ACGTAACGTA").data⟩ : Record).seq_id } :=
  c8_ok_records_fully_decoded .Ngs
    [("@s9\n").data,
      ("10 20 5 2.0 5 90 1 50 20 20 30 30 1.5 ACGTA ACGTAACGTA GGG CCC\n").data]
    0 [] _ (by decide)

/-- Claim C10: the record iterators are not fused after an error.  A failing
`read_record` call leaves the reader past the offending line (the remaining
lines are a strictly shorter suffix), the partial record is discarded (the
next call restarts from `Record.default`, which is what `runItems_step`
continues with), and concretely a malformed data line followed by a
well-formed one yields an Err item followed by a further Ok record. -/
theorem c10_not_fused_after_error (flag : Flag) :
    (∀ (lines : List Str) (line : Nat) (id : Str) e l1 i1 rest,
      readLoop flag Record.default line id lines = ⟨.fail e, l1, i1, rest⟩ →
      rest.length < lines.length ∧ rest <:+ lines ∧
      runItems flag line id lines = .error e :: runItems flag l1 i1 rest) ∧
    runItems .D 0 []
        (splitLines
          ("q r\n10 20 5 2.0 5 90 1 50 20 20 30 30 1.5 ACGTA ACGTAACGTA\n").data) =
      [Item.error (.readRecord
          (("at line 1, parser error - could not split into 15 elements").data)),
       Item.ok ⟨[], 10, 20, 5, ⟨20, -1⟩, 5, 90, 1, 50, 20, 20, 30, 30,
        ⟨15, -1⟩, ("ACGTA").data, ("ACGTAACGTA").data⟩] := by
  constructor
  · intro lines line id e l1 i1 rest h
    refine ⟨(readLoop_facts flag lines line id).1 e l1 i1 rest h, ?_, ?_⟩
    · have := readLoop_rest_suffix flag lines Record.default line id
      rw [h] at this
      exact this
    · rw [runItems_step, h]
  · decide

/-- Witness for C10: after the error on "q r\n" the reader continues on the
remaining well-formed line. -/
theorem c10_not_fused_after_error_witness :
    ([("10 20 5 2.0 5 90 1 50 20 20 30 30 1.5 ACGTA ACGTAACGTA\n").data] :
        List Str).length <
      ([("q r\n").data,
        ("10 20 5 2.0 5 90 1 50 20 20 30 30 1.5 ACGTA ACGTAACGTA\n").data] :
        List Str).length ∧
    [("10 20 5 2.0 5 90 1 50 20 20 30 30 1.5 ACGTA ACGTAACGTA\n").data] <:+
      [("q r\n").data,
        ("10 20 5 2.0 5 90 1 50 20 20 30 30 1.5 ACGTA ACGTAACGTA\n").data] ∧
    runItems .D 0 []
        [("q r\n").data,
          ("10 20 5 2.0 5 90 1 50 20 20 30 30 1.5 ACGTA ACGTAACGTA\n").data] =
      .error (.readRecord
          (("at line 1, parser error - could not split into 15 elements").data)) ::
        runItems .D 1 []
          [("10 20 5 2.0 5 90 1 50 20 20 30 30 1.5 ACGTA ACGTAACGTA\n").data] :=
  (c10_not_fused_after_error .D).1
    [("q r\n").data,
      ("10 20 5 2.0 5 90 1 50 20 20 30 30 1.5 ACGTA ACGTAACGTA\n").data]
    0 []
    (.readRecord
      (("at line 1, parser error - could not split into 15 elements").data))
    1 []
    [("10 20 5 2.0 5 90 1 50 20 20 30 30 1.5 ACGTA ACGTAACGTA\n").data]
    (by decide)

/-- On a stream of tame lines the two read loops coincide step for step. -/
theorem readLoops_agree :
    ∀ (lines : List Str), (∀ l ∈ lines, tameLine l) →
    ∀ (record : Record) (line : Nat) (id : Str),
    readLoop .D record line id lines = libReadLoop record line id lines := by
  intro lines
  induction lines with
  | nil =>
    intro _ record line id
    rfl
  | cons input rest ih =>
    intro htame record line id
    obtain ⟨heq, hout⟩ := htame input (List.mem_cons_self input rest) record
    simp only [readLoop, libReadLoop, ← heq]
    rcases hout with hskip | hdata
    · rw [parseInputLine_skip input record .D hskip]
      exact ih (fun l hl => htame l (List.mem_cons_of_mem input hl)) record
        (line + 1) id
    · rcases hp : parseInputLine input record .D with ⟨o, r1⟩
      rw [hp] at hdata
      simp only at hdata
      subst hdata
      rfl

/-- Claim C2 (amended): the legacy lib.rs reader and the classic (Flag::D)
reader-module reader are not the same state machine (see
`c2_not_same_machine`): they diverge on identifier lines — the legacy loop
breaks and emits the in-progress record, the reader module continues — and
on data lines that do not split into 15 tokens — the legacy parser skips
them, the reader module raises a parser error (wrapped as `ReadRecord`
rather than the legacy `Parser` kind).  On streams all of whose lines are
tame (blank, boilerplate, or well-formed 15-token data lines) the two
readers do yield the same sequence of record values and error outcomes in
the same order. -/
theorem c2_lib_equals_reader_on_tame (lines : List Str)
    (htame : ∀ l ∈ lines, tameLine l) :
    ∀ (line : Nat) (id : Str),
    libRunItems line id lines = runItems .D line id lines := by
  have H : ∀ (N : Nat) (lines : List Str), lines.length ≤ N →
      (∀ l ∈ lines, tameLine l) → ∀ (line : Nat) (id : Str),
      libRunItems line id lines = runItems .D line id lines := by
    intro N
    induction N with
    | zero =>
      intro lines hlen _ line id
      have hnil : lines = [] := List.length_eq_zero.mp (Nat.le_zero.mp hlen)
      subst hnil
      rw [libRunItems_step, runItems_step]
      simp [libReadLoop, readLoop]
    | succ N ih =>
      intro lines hlen htame line id
      rw [libRunItems_step, runItems_step,
        ← readLoops_agree lines htame Record.default line id]
      rcases h : readLoop .D Record.default line id lines with
        ⟨res, l1, i1, rest⟩
      obtain ⟨hfail, hemit⟩ := readLoop_facts .D lines line id
      have hsuf : rest <:+ lines := by
        have := readLoop_rest_suffix .D lines Record.default line id
        rw [h] at this
        exact this
      have htame1 : ∀ l ∈ rest, tameLine l := fun l hl => htame l (hsuf.subset hl)
      cases res with
      | eof => rfl
      | panicked m => rfl
      | fail e =>
        have hlt := hfail e l1 i1 rest h
        dsimp only
        rw [ih rest (by omega) htame1 l1 i1]
      | emit r =>
        obtain ⟨hlt, -⟩ := hemit r l1 i1 rest h
        dsimp only
        rw [ih rest (by omega) htame1 (l1 + 1) i1]
  exact fun line id => H lines.length lines (le_refl _) htame line id

/-- Witness for the amended C2: a blank line, a boilerplate line and a
well-formed data line are processed identically by both readers. -/
theorem c2_lib_equals_reader_on_tame_witness :
    libRunItems 0 []
        [("\n").data, ("Version 4.09\n").data,
          ("10 20 5 2.0 5 90 1 50 20 20 30 30 1.5 ACGTA ACGTAACGTA\n").data] =
      runItems .D 0 []
        [("\n").data, ("Version 4.09\n").data,
          ("10 20 5 2.0 5 90 1 50 20 20 30 30 1.5 ACGTA ACGTAACGTA\n").data] :=
  c2_lib_equals_reader_on_tame
    [("\n").data, ("Version 4.09\n").data,
      ("10 20 5 2.0 5 90 1 50 20 20 30 30 1.5 ACGTA ACGTAACGTA\n").data]
    (by
      intro l hl
      simp only [List.mem_cons, List.not_mem_nil, or_false] at hl
      rcases hl with rfl | rfl | rfl
      · exact fun r => ⟨rfl, Or.inl rfl⟩
      · exact fun r => ⟨rfl, Or.inl rfl⟩
      · exact fun r => ⟨rfl, Or.inr rfl⟩)
    0 []

end Trfr
